import Mathlib

/-!
Shallow embedding of the data-loading and caching layer of the
`nextgen-portfolio` front-end (`DataLoadingService` in the data-loading
module): path normalization, the override lookup, the external-then-local
load sequence, and the cache / in-flight request bookkeeping of `getData`,
together with a small heap model for the reference/mutation behaviour of
the values `getData` hands out.
-/

set_option autoImplicit false

namespace Portfolio

/-- JavaScript runtime values as far as the data-loading layer observes
them: JSON-like data (null, booleans, numbers, strings, arrays, objects),
plus `undefined` and opaque binary payloads.  A `Blob` or `ArrayBuffer` is
identified by a numeric identity so that return-by-reference is
distinguishable from return-by-copy. -/
inductive Value where
  | vnull
  | vundefined
  | vbool (b : Bool)
  | vnum (n : Int)
  | vstr (s : String)
  | vblob (id : Nat)
  | vbuf (id : Nat)
  | varr (xs : List Value)
  | vobj (fields : List (String × Value))

/-- JavaScript truthiness of a `Value` (used by `getExternalUrl`'s
`override1 || override2` and `(override && typeof override === 'string')`). -/
def truthy : Value → Bool
  | .vnull => false
  | .vundefined => false
  | .vbool b => b
  | .vnum n => decide (n ≠ 0)
  | .vstr s => decide (s ≠ "")
  | .vblob _ => true
  | .vbuf _ => true
  | .varr _ => true
  | .vobj _ => true

/-- The own enumerable index properties contributed by spreading a string
or an array: keys "0", "1", … in order. -/
def indexFields (vs : List Value) : List (String × Value) :=
  (vs.enum).map (fun ic => (Nat.repr ic.1, ic.2))

/-- JavaScript object-spread `{ ...v }`: copies the own enumerable
properties of `v` into a fresh plain object.  Objects yield their fields;
strings yield their characters under index keys; arrays yield their
elements under index keys; every other value (null, undefined, numbers,
booleans, Blob, ArrayBuffer) contributes no own enumerable properties, so
the result is the empty object. -/
def spreadCopy : Value → Value
  | .vobj fs => .vobj fs
  | .vstr s => .vobj (indexFields (s.data.map (fun c => .vstr (String.singleton c))))
  | .varr xs => .vobj (indexFields xs)
  | _ => .vobj []

/-- The return expression used by `getData` on both the cache-hit path and
the initiating-caller success path:
`data instanceof Blob ? data : { ...data }`. -/
def returnValue (v : Value) : Value :=
  match v with
  | .vblob id => .vblob id
  | v => spreadCopy v

/-- JavaScript `s.startsWith(pre)`: the first `pre.length`
characters of `s` are exactly `pre`. -/
def beginsWith (s pre : String) : Bool :=
  s.data.take pre.data.length == pre.data

/-- Path normalization `normalizeLocalUrl` of `DataLoadingService`: a leading-slash path is
kept, an `assets/`-rooted path gets a leading slash, anything else is
placed under `/assets/`. -/
def normalizeLocalUrl (endpoint : String) : String :=
  if beginsWith endpoint "/" then endpoint
  else if beginsWith endpoint "assets/" then "/" ++ endpoint
  else "/assets/" ++ endpoint

/-! ### Association-list primitives

`Map<string, …>` / `Map<number, …>` as association lists; only `get`,
`set` (overwrite), `delete` and in-place update are used by the service. -/

/-- Lookup `Map.get`: the value under `key`, if present. -/
def alGet {κ β : Type} [DecidableEq κ] : List (κ × β) → κ → Option β
  | [], _ => none
  | (k, v) :: rest, key => if k = key then some v else alGet rest key

/-- Remove every binding of `key` (`Map.delete`). -/
def alDrop {κ β : Type} [DecidableEq κ] (l : List (κ × β)) (key : κ) : List (κ × β) :=
  l.filter (fun kv => decide (kv.1 ≠ key))

/-- Overwrite `Map.set`: replace the binding of `key`. -/
def alSet {κ β : Type} [DecidableEq κ] (l : List (κ × β)) (key : κ) (v : β) : List (κ × β) :=
  (key, v) :: alDrop l key

/-- Update the value bound to `key` in place, leaving other bindings alone. -/
def alUpd {κ β : Type} [DecidableEq κ] (l : List (κ × β)) (key : κ) (f : β → β) : List (κ × β) :=
  l.map (fun kv => if kv.1 = key then (kv.1, f kv.2) else kv)

/-! ### Override lookup (`getExternalUrl`) -/

/-- JavaScript property access `cfg[key]` on the outreach-config object:
`undefined` when the key is absent. -/
def objGet (cfg : List (String × Value)) (key : String) : Value :=
  (alGet cfg key).getD .vundefined

/-- Override lookup `getExternalUrl` of `DataLoadingService`: consults the loaded outreach
config under the locator and under its leading-slash-toggled spelling
(`override1 || override2`), and yields the override only when it is a
truthy string. -/
def getExternalUrl (outreachConfig : Option (List (String × Value))) (localUrl : String) :
    Option String :=
  match outreachConfig with
  | none => none
  | some cfg =>
    let override1 := objGet cfg localUrl
    let altKey := if beginsWith localUrl "/" then localUrl.drop 1 else "/" ++ localUrl
    let override2 := objGet cfg altKey
    let override := if truthy override1 then override1 else override2
    match override with
    | .vstr s => if truthy (.vstr s) then some s else none
    | _ => none

/-! ### The load sequence (`performDataLoad`)

The two fetch primitives (`fetchExternalData` through the proxy, and the
local `http.get`) are abstracted as oracles giving each attempt's outcome;
`performDataLoad` sequences them exactly as the source does and records
which attempts were made. -/

/-- Provenance tag of a cache entry. -/
inductive Source where
  | external
  | local
  deriving DecidableEq, Repr

/-- The four `responseType` values accepted by `getData`. -/
inductive RespType where
  | json
  | text
  | blob
  | arraybuffer
  deriving DecidableEq, Repr

/-- A network attempt made during one load sequence. -/
inductive Attempt where
  | ext (url : String)
  | loc (url : String)
  deriving DecidableEq, Repr

/-- Usability check `data !== undefined && data !== null`. -/
def usable : Value → Bool
  | .vundefined => false
  | .vnull => false
  | _ => true

/-- The local-fallback half of `performDataLoad`: one `http.get` of the
local URL; a null/undefined payload or a transport error becomes a
terminal `DataLoadError`. -/
def localFallback (localUrl : String) (locFetch : Except Unit Value)
    (priorAttempts : List Attempt) : Except Unit (Value × Source) × List Attempt :=
  match locFetch with
  | .ok d =>
    if usable d then (.ok (d, .local), priorAttempts ++ [.loc localUrl])
    else (.error (), priorAttempts ++ [.loc localUrl])
  | .error _ => (.error (), priorAttempts ++ [.loc localUrl])

/-- Load sequence `performDataLoad` of `DataLoadingService`: if `getExternalUrl` yields
an override, try the external fetch first and keep its result when it is
usable; on an external error or unusable payload fall through to the local
fetch; with no override go straight to the local fetch. -/
def performDataLoad (outreachConfig : Option (List (String × Value))) (localUrl : String)
    (extFetch : String → Except Unit Value) (locFetch : Except Unit Value) :
    Except Unit (Value × Source) × List Attempt :=
  match getExternalUrl outreachConfig localUrl with
  | some u =>
    match extFetch u with
    | .ok d =>
      if usable d then (.ok (d, .external), [.ext u])
      else localFallback localUrl locFetch [.ext u]
    | .error _ => localFallback localUrl locFetch [.ext u]
  | none => localFallback localUrl locFetch []

/-! ### The orchestrator machine

`getData` suspends only at the `await requestPromise`; everything before
it (normalization, cache check, in-flight check, registration of the
pending promise) runs synchronously, and the continuation after the await
(cache population / failure marker, the `finally` delete) runs
synchronously when the load settles.  The machine makes those two atomic
blocks explicit: a `call` event runs a caller's synchronous prefix, a
`resolve` event settles a live load (with the outcome the network
produced) and runs the continuation, and a `clear` event is a
`clearCache` call.  `fetchLog` records each started load sequence. -/

/-- A `DataCacheEntry`: payload, provenance and the response type it was
fetched as.  (`timestamp: Date.now()` is wall-clock metadata that no
control flow reads; it is modelled as `0`.) -/
structure DataCacheEntry where
  data : Value
  source : Source
  responseType : RespType

/-- A live load sequence: its local URL and requested kind, the caller
that started it, and the callers deduplicated onto its `dataPromise`. -/
structure Load where
  url : String
  kind : RespType
  initiator : Nat
  waiters : List Nat

/-- What a caller's `getData` promise settled to. -/
inductive CallResult where
  | ok (v : Value)
  | errPrevFailed
  | errLoad

/-- Machine state: the `cache` map (`some entry` = cached success, `none`
= the `undefined` failure marker), the `pendingRequests` map from local
URL to load id, the live load continuations, each settled caller's
result, and the log of started load sequences. -/
structure St where
  cache : List (String × Option DataCacheEntry)
  pendingIds : List (String × Nat)
  loads : List (Nat × Load)
  results : List (Nat × CallResult)
  fetchLog : List (String × RespType)
  nextLoad : Nat

/-- The state before any request: empty maps. -/
def initSt : St :=
  { cache := [], pendingIds := [], loads := [], results := [], fetchLog := [], nextLoad := 0 }

/-- The outcome the network hands a settling load sequence. -/
inductive LoadOutcome where
  | success (v : Value) (src : Source)
  | failure

/-- An atomic step of the cooperative scheduler. -/
inductive Event where
  | call (caller : Nat) (path : String) (kind : RespType)
  | resolve (lid : Nat) (outcome : LoadOutcome)
  | clear (path : Option String)

/-- The tail of `getData` after the cache check missed: reuse a pending
request for the same URL, or start a new load sequence and register its
`dataPromise` in `pendingRequests`. -/
def afterCacheMiss (st : St) (caller : Nat) (url : String) (kind : RespType) : St :=
  match alGet st.pendingIds url with
  | some lid =>
    { st with loads := alUpd st.loads lid (fun L => { L with waiters := L.waiters ++ [caller] }) }
  | none =>
    let lid := st.nextLoad
    { st with
      loads := (lid, { url := url, kind := kind, initiator := caller, waiters := [] }) :: st.loads
      pendingIds := alSet st.pendingIds url lid
      fetchLog := st.fetchLog ++ [(url, kind)]
      nextLoad := lid + 1 }

/-- The synchronous prefix of `getData(path, kind)` run by `caller`:
normalize; on a cached entry of matching kind return
`data instanceof Blob ? data : { ...data }`; on the `undefined` failure
marker throw the "previously failed" `DataLoadError`; a kind-mismatched
entry falls through to the in-flight check like a miss. -/
def callStep (st : St) (caller : Nat) (path : String) (kind : RespType) : St :=
  let url := normalizeLocalUrl path
  match alGet st.cache url with
  | some (some cached) =>
    if cached.responseType = kind then
      { st with results := (caller, .ok (returnValue cached.data)) :: st.results }
    else
      afterCacheMiss st caller url kind
  | some none =>
    { st with results := (caller, .errPrevFailed) :: st.results }
  | none => afterCacheMiss st caller url kind

/-- The continuation of `getData` when load `lid` settles: on success,
store the cache entry under the load's URL and hand the initiator the
spread-transformed value while every deduplicated waiter's `dataPromise`
resolves to `result.data` itself; on failure, store the `undefined`
failure marker and reject everyone with the same error.  The `finally`
clause deletes the URL's `pendingRequests` binding either way.  The
continuation runs regardless of any intervening `clearCache`. -/
def resolveStep (st : St) (lid : Nat) (outcome : LoadOutcome) : St :=
  match alGet st.loads lid with
  | none => st
  | some L =>
    match outcome with
    | .success v src =>
      { st with
        cache := alSet st.cache L.url (some { data := v, source := src, responseType := L.kind })
        pendingIds := alDrop st.pendingIds L.url
        loads := alDrop st.loads lid
        results :=
          (L.initiator, .ok (returnValue v)) :: L.waiters.map (fun w => (w, .ok v)) ++ st.results }
    | .failure =>
      { st with
        cache := alSet st.cache L.url none
        pendingIds := alDrop st.pendingIds L.url
        loads := alDrop st.loads lid
        results :=
          (L.initiator, .errLoad) :: L.waiters.map (fun w => (w, .errLoad)) ++ st.results }

/-- Cache clearing `clearCache(path?)`: delete one URL's cache slot and pending record,
or clear both maps entirely.  Live load continuations are not cancelled. -/
def clearStep (st : St) (path : Option String) : St :=
  match path with
  | some p =>
    let url := normalizeLocalUrl p
    { st with cache := alDrop st.cache url, pendingIds := alDrop st.pendingIds url }
  | none => { st with cache := [], pendingIds := [] }

/-- One scheduler step. -/
def step (st : St) : Event → St
  | .call caller path kind => callStep st caller path kind
  | .resolve lid outcome => resolveStep st lid outcome
  | .clear path => clearStep st path

/-- Run a whole schedule of events. -/
def runScript (events : List Event) (st : St) : St :=
  events.foldl step st

/-- Wrapper `getText(path)`: `getData(path, 'text')`. -/
def getTextEvent (caller : Nat) (path : String) : Event :=
  .call caller path .text

/-- Wrapper `getBlob(path)`: `getData(path, 'blob')`. -/
def getBlobEvent (caller : Nat) (path : String) : Event :=
  .call caller path .blob

/-- Wrapper `getArrayBuffer(path)`: `getData(path, 'arraybuffer')`. -/
def getArrayBufferEvent (caller : Nat) (path : String) : Event :=
  .call caller path .arraybuffer

/-- The machine state while a single load sequence (id 0, started by
caller 1) for `p` at kind `k` is in flight, with `ws` the deduplicated
callers registered so far and `fl` the fetch log. -/
def inFlightSt (p : String) (k : RespType) (ws : List Nat) (fl : List (String × RespType)) : St :=
  { cache := []
    pendingIds := [(normalizeLocalUrl p, 0)]
    loads := [(0, { url := normalizeLocalUrl p, kind := k, initiator := 1, waiters := ws })]
    results := []
    fetchLog := fl
    nextLoad := 1 }

/-! ### Heap model for returned structured values

The structural machine above treats payloads as pure values; sharing and
mutation of the objects `getData` hands out need reference semantics.
Here a structured payload lives in an explicit heap of plain objects, and
the two return paths of `getData` are modelled on it: the initiating /
cache-hit return `{ ...data }` allocates a fresh object with the same
(shallow) field list, while a deduplicated caller's `dataPromise`
resolves to `result.data` — the cached root reference itself. -/

namespace HeapModel

/-- A field value: a primitive (number or string), a reference to a heap
object, or `undefined`. -/
inductive HVal where
  | hatom (n : Int)
  | hstr (s : String)
  | href (a : Nat)
  | hundefined
  deriving DecidableEq, Repr

/-- A plain object: its own properties in insertion order. -/
abbrev HObj := List (String × HVal)

/-- The heap: objects addressed by index. -/
abbrev Heap := List HObj

/-- Dereference an address (out-of-range reads give the empty object;
the scenarios below only use valid addresses). -/
def heapGet (h : Heap) (a : Nat) : HObj :=
  (h[a]?).getD []

/-- JavaScript property read `o[k]`: `undefined` when absent. -/
def fieldGet (o : HObj) (k : String) : HVal :=
  ((o.find? (fun kv => kv.1 == k)).map (fun kv => kv.2)).getD .hundefined

/-- JavaScript property write `o[k] = v`: update in place, or append a
new own property. -/
def fieldSet : HObj → String → HVal → HObj
  | [], k, v => [(k, v)]
  | (k', v') :: rest, k, v =>
    if k' = k then (k, v) :: rest else (k', v') :: fieldSet rest k v

/-- Mutate field `k` of the object at address `a`. -/
def heapSetField (h : Heap) (a : Nat) (k : String) (v : HVal) : Heap :=
  h.set a (fieldSet (heapGet h a) k v)

/-- Allocate a fresh object. -/
def allocObj (h : Heap) (o : HObj) : Heap × Nat :=
  (h ++ [o], h.length)

/-- The value returned to the initiating caller and to every cache-hit
caller for a structured payload rooted at `root`: `{ ...data }`, a
freshly allocated object sharing the cached object's field list. -/
def shallowCopyReturn (h : Heap) (root : Nat) : Heap × HVal :=
  let p := allocObj h (heapGet h root)
  (p.1, .href p.2)

/-- The value a deduplicated caller receives: `result.data` itself, the
very reference stored in the cache entry. -/
def dedupReturn (root : Nat) : HVal :=
  .href root

/-- Read a chain of properties starting from `v` (a finite observation of
the returned value). -/
def readPath (h : Heap) : HVal → List String → HVal
  | v, [] => v
  | .href a, k :: ks => readPath h (fieldGet (heapGet h a) k) ks
  | _, _ :: _ => .hundefined

/-- A value whose references stay below `n`. -/
def refBound (n : Nat) : HVal → Bool
  | .href a => decide (a < n)
  | _ => true

/-- Every reference stored anywhere in the heap points at an existing
object. -/
def heapClosed (h : Heap) : Bool :=
  h.all (fun o => o.all (fun kv => refBound h.length kv.2))

end HeapModel

/-! ## Helper lemmas -/

theorem beginsWith_append (a b : String) : beginsWith (a ++ b) a = true := by
  unfold beginsWith
  rw [show (a ++ b).data = a.data ++ b.data from rfl, List.take_left]
  exact beq_iff_eq.mpr rfl

theorem beginsWith_assets_slash (p : String) : beginsWith ("assets/" ++ p) "/" = false := by
  unfold beginsWith
  rw [show ("assets/" ++ p).data = 'a' :: 's' :: 's' :: 'e' :: 't' :: 's' :: '/' :: p.data from rfl,
    show "/".data.length = 1 from rfl]
  simp [List.take_succ_cons]

theorem slash_assets_split (p : String) : "/assets/" ++ p = "/" ++ ("assets/" ++ p) := by
  rw [show ("/assets/" : String) = "/" ++ "assets/" from rfl, String.append_assoc]

theorem localFallback_attempts (url : String) (locF : Except Unit Value) (pre : List Attempt) :
    (localFallback url locF pre).2 = pre ++ [.loc url] := by
  cases locF with
  | ok d =>
    rw [localFallback]
    split <;> rfl
  | error e => rfl

theorem perform_attempts_override (cfg : Option (List (String × Value))) (url : String)
    (extF : String → Except Unit Value) (locF : Except Unit Value) (u : String)
    (h : getExternalUrl cfg url = some u) :
    (performDataLoad cfg url extF locF).2 = [.ext u] ∨
    (performDataLoad cfg url extF locF).2 = [.ext u, .loc url] := by
  simp only [performDataLoad, h]
  cases hx : extF u with
  | ok d =>
    simp only [hx]
    by_cases hu : usable d = true
    · left
      simp [hu]
    · right
      simp [hu, localFallback_attempts]
  | error e =>
    simp only [hx]
    exact Or.inr (localFallback_attempts url locF [.ext u])

theorem perform_attempts_no_override (cfg : Option (List (String × Value))) (url : String)
    (extF : String → Except Unit Value) (locF : Except Unit Value)
    (h : getExternalUrl cfg url = none) :
    (performDataLoad cfg url extF locF).2 = [.loc url] := by
  simp only [performDataLoad, h]
  simp [localFallback_attempts]

theorem first_call_starts (p : String) (k : RespType) :
    step initSt (.call 1 p k) = inFlightSt p k [] [(normalizeLocalUrl p, k)] := by
  simp [initSt, inFlightSt, step, callStep, afterCacheMiss, alGet, alSet, alDrop]

theorem waiters_accumulate (p : String) (k : RespType) (cs : List Nat) (ws : List Nat)
    (fl : List (String × RespType)) :
    runScript (cs.map (fun c => Event.call c p k)) (inFlightSt p k ws fl)
      = inFlightSt p k (ws ++ cs) fl := by
  induction cs generalizing ws with
  | nil => simp [runScript]
  | cons c cs ih =>
    rw [List.map_cons, runScript, List.foldl_cons]
    have hstep : step (inFlightSt p k ws fl) (.call c p k) = inFlightSt p k (ws ++ [c]) fl := by
      simp [inFlightSt, step, callStep, afterCacheMiss, alGet, alUpd]
    rw [hstep]
    have h2 := ih (ws ++ [c])
    rw [runScript] at h2
    rw [h2, List.append_assoc]
    rfl

namespace HeapModel

theorem fieldGet_mem_or_undef (o : HObj) (k : String) :
    (∃ kv ∈ o, fieldGet o k = kv.2) ∨ fieldGet o k = .hundefined := by
  unfold fieldGet
  cases hf : o.find? (fun kv => kv.1 == k) with
  | none => exact Or.inr rfl
  | some kv => exact Or.inl ⟨kv, List.mem_of_find?_eq_some hf, rfl⟩

theorem heapClosed_field (h : Heap) (hcl : heapClosed h = true) (a : Nat) (ha : a < h.length)
    (k : String) : refBound h.length (fieldGet (heapGet h a) k) = true := by
  rcases fieldGet_mem_or_undef (heapGet h a) k with ⟨kv, hkv, he⟩ | he
  · rw [he]
    have hsome : h[a]? = some h[a] := List.getElem?_eq_getElem ha
    unfold heapGet at hkv
    rw [hsome] at hkv
    simp only [Option.getD_some] at hkv
    have hmem : h[a] ∈ h := List.getElem_mem ha
    unfold heapClosed at hcl
    rw [List.all_eq_true] at hcl
    have h2 := hcl _ hmem
    rw [List.all_eq_true] at h2
    exact h2 kv hkv
  · rw [he]
    rfl

theorem readPath_agree (h h' : Heap) (hcl : heapClosed h = true)
    (hag : ∀ a, a < h.length → heapGet h' a = heapGet h a) :
    ∀ (path : List String) (v : HVal), refBound h.length v = true →
      readPath h' v path = readPath h v path := by
  intro path
  induction path with
  | nil =>
    intro v _
    cases v <;> rfl
  | cons key ks ih =>
    intro v hv
    cases v with
    | href a =>
      have ha : a < h.length := by simpa [refBound] using hv
      simp only [readPath]
      rw [hag a ha]
      exact ih _ (heapClosed_field h hcl a ha key)
    | hatom n => rfl
    | hstr s => rfl
    | hundefined => rfl

theorem heapGet_append_low (l l2 : Heap) (a : Nat) (ha : a < l.length) :
    heapGet (l ++ l2) a = heapGet l a := by
  unfold heapGet
  rw [List.getElem?_append_left ha]

theorem heapGet_concat_self (l : Heap) (o : HObj) : heapGet (l ++ [o]) l.length = o := by
  unfold heapGet
  rw [List.getElem?_concat_length]
  rfl

theorem heapGet_set_low (l : Heap) (i : Nat) (o : HObj) (a : Nat) (ha : a ≠ i) :
    heapGet (l.set i o) a = heapGet l a := by
  unfold heapGet
  rw [List.getElem?_set_ne (Ne.symm ha)]

theorem heapGet_mutated_low (h : Heap) (o : HObj) (key : String) (vnew : HVal)
    (a : Nat) (ha : a < h.length) :
    heapGet (heapSetField (h ++ [o]) h.length key vnew) a = heapGet h a := by
  unfold heapSetField
  rw [heapGet_set_low _ _ _ a (Nat.ne_of_lt ha)]
  exact heapGet_append_low h [o] a ha

theorem mutated_length (h : Heap) (o : HObj) (key : String) (vnew : HVal) :
    (heapSetField (h ++ [o]) h.length key vnew).length = h.length + 1 := by
  unfold heapSetField
  rw [List.length_set, List.length_append, List.length_cons, List.length_nil]

end HeapModel

/-! ## Claim theorems -/

/-- Claim C1, evaluated against the code at its failing input: for the
text payload "hi", both the first (fetching) `getText` call and the
subsequent cache-hit `getText` call resolve to `{ ..."hi" }` — the
character-index object `{0: "h", 1: "i"}` produced by the spread in
`getData`'s return expression — and that object is not the raw text
string, so `getText` does not resolve to the raw text unchanged on either
call. -/
theorem c1_text_spread_corruption :
    (runScript [getTextEvent 1 "notes.txt", .resolve 0 (.success (.vstr "hi") .local),
        getTextEvent 2 "notes.txt"] initSt).results
      = [(2, .ok (.vobj [("0", .vstr "h"), ("1", .vstr "i")])),
         (1, .ok (.vobj [("0", .vstr "h"), ("1", .vstr "i")]))] ∧
    (Value.vobj [("0", .vstr "h"), ("1", .vstr "i")]) ≠ .vstr "hi" :=
  ⟨rfl, by simp⟩

/-- Claim C2, evaluated against the code at its failing input: a Blob
payload is indeed returned by identity on both the fetching call and the
cache-hit call, but an ArrayBuffer payload is not — `getData`'s return
expression only special-cases `instanceof Blob`, so an ArrayBuffer is
spread into the empty plain object `{}` on both calls instead of being
returned by reference. -/
theorem c2_arraybuffer_spread_destroyed :
    (runScript [getArrayBufferEvent 1 "cv.pdf", .resolve 0 (.success (.vbuf 7) .external),
        getArrayBufferEvent 2 "cv.pdf"] initSt).results
      = [(2, .ok (.vobj [])), (1, .ok (.vobj []))] ∧
    (Value.vobj []) ≠ .vbuf 7 ∧
    (runScript [getBlobEvent 1 "cv.pdf", .resolve 0 (.success (.vblob 3) .external),
        getBlobEvent 2 "cv.pdf"] initSt).results
      = [(2, .ok (.vblob 3)), (1, .ok (.vblob 3))] :=
  ⟨rfl, by simp, rfl⟩

/-- Claim C3 as stated is false at a concrete input: a request for
"a.json" is started, `clearCache("a.json")` runs while it is in flight,
and when the cleared request later resolves its result IS stored into the
cache — the cache slot for the locator holds the late-arriving entry
rather than being absent. -/
theorem c3_claim_counterexample :
    alGet (runScript [.call 1 "a.json" .json, .clear (some "a.json"),
        .resolve 0 (.success (.vobj [("a", .vnum 1)]) .local)] initSt).cache "/assets/a.json"
      = some (some { data := .vobj [("a", .vnum 1)], source := .local, responseType := .json }) :=
  rfl

/-- Claim C3 amended: `clearCache(p)` does remove the cache slot and the
in-flight record at the moment it runs, but a cleared in-flight request is
not cancelled — when it later settles, its continuation still writes the
result into the cache (a success as a cache entry, a failure as the
`undefined` failure marker). -/
theorem c3_amended_late_result_stored (p : String) (k : RespType) (v : Value) (src : Source) :
    (runScript [.call 1 p k, .clear (some p)] initSt).cache = [] ∧
    (runScript [.call 1 p k, .clear (some p)] initSt).pendingIds = [] ∧
    (runScript [.call 1 p k, .clear (some p), .resolve 0 (.success v src)] initSt).cache
      = [(normalizeLocalUrl p, some { data := v, source := src, responseType := k })] ∧
    (runScript [.call 1 p k, .clear (some p), .resolve 0 .failure] initSt).cache
      = [(normalizeLocalUrl p, none)] := by
  refine ⟨?_, ?_, ?_, ?_⟩ <;>
    simp [runScript, step, callStep, afterCacheMiss, resolveStep, clearStep, initSt,
      alGet, alSet, alDrop]

/-- Claim C5: after a `getData(p, k)` call fails terminally (recording the
`undefined` failure marker), an immediately following `getData(p, k)` call
rejects with the "previously failed" error variant and no new load
sequence (hence no network attempt) is started; after `clearCache(p)` a
further call does start a fresh load sequence. -/
theorem c5_failure_stickiness (p : String) (k : RespType) :
    (runScript [.call 1 p k, .resolve 0 .failure, .call 2 p k] initSt).results
      = [(2, .errPrevFailed), (1, .errLoad)] ∧
    (runScript [.call 1 p k, .resolve 0 .failure, .call 2 p k] initSt).fetchLog
      = [(normalizeLocalUrl p, k)] ∧
    (runScript [.call 1 p k, .resolve 0 .failure, .call 2 p k, .clear (some p),
        .call 3 p k] initSt).fetchLog
      = [(normalizeLocalUrl p, k), (normalizeLocalUrl p, k)] := by
  refine ⟨?_, ?_, ?_⟩ <;>
    simp [runScript, step, callStep, afterCacheMiss, resolveStep, clearStep, initSt,
      alGet, alSet, alDrop]

/-- Claim C6: in `performDataLoad`, if an override URL exists for the
locator and the external attempt fails, a local fetch is still attempted
(after the external attempt) before the call can fail terminally; if no
override exists, no external attempt is made and only the local fetch is
attempted. -/
theorem c6_fallback_order (cfg : Option (List (String × Value))) (url : String)
    (extF : String → Except Unit Value) (locF : Except Unit Value) :
    (∀ u, getExternalUrl cfg url = some u → extF u = .error () →
      (performDataLoad cfg url extF locF).2 = [.ext u, .loc url]) ∧
    (getExternalUrl cfg url = none →
      (performDataLoad cfg url extF locF).2 = [.loc url]) := by
  constructor
  · intro u hu he
    simp only [performDataLoad, hu, he]
    simp [localFallback_attempts]
  · exact perform_attempts_no_override cfg url extF locF

/-- Witness for C6 at concrete inputs: with an override for "/a.json" and
a failing external fetch, the attempts are external-then-local; with no
override configuration, the only attempt is the local one. -/
theorem c6_fallback_order_witness :
    (performDataLoad (some [("/a.json", Value.vstr "https://ext/a.json")]) "/a.json"
        (fun _ => .error ()) (.ok (.vobj [("a", .vnum 1)]))).2
      = [.ext "https://ext/a.json", .loc "/a.json"] ∧
    (performDataLoad none "/b.json" (fun _ => .error ()) (.ok (.vobj []))).2
      = [.loc "/b.json"] :=
  ⟨(c6_fallback_order (some [("/a.json", Value.vstr "https://ext/a.json")]) "/a.json"
      (fun _ => .error ()) (.ok (.vobj [("a", .vnum 1)]))).1 "https://ext/a.json" (by decide) rfl,
   (c6_fallback_order none "/b.json" (fun _ => .error ()) (.ok (.vobj []))).2 rfl⟩

/-- Claim C7 as stated is false at concrete inputs.  First, two concurrent
text-kind callers do not observe the same resolved value: the single load
resolves to the string "hi", the initiating caller's return path spreads
it into the index object `{0: "h", 1: "i"}`, while the deduplicated caller
receives the raw string — two different values from one load.  Second,
when an override exists and the external attempt succeeds, the load
sequence makes no local-fetch attempt at all, so "exactly one local-fetch
attempt" also fails. -/
theorem c7_claim_counterexample :
    (runScript [.call 1 "notes.txt" .text, .call 2 "notes.txt" .text,
        .resolve 0 (.success (.vstr "hi") .local)] initSt).fetchLog
      = [("/assets/notes.txt", .text)] ∧
    (runScript [.call 1 "notes.txt" .text, .call 2 "notes.txt" .text,
        .resolve 0 (.success (.vstr "hi") .local)] initSt).results
      = [(1, .ok (.vobj [("0", .vstr "h"), ("1", .vstr "i")])), (2, .ok (.vstr "hi"))] ∧
    (Value.vobj [("0", .vstr "h"), ("1", .vstr "i")]) ≠ .vstr "hi" ∧
    (performDataLoad (some [("/assets/x.json", .vstr "https://ext/x.json")]) "/assets/x.json"
        (fun _ => .ok (.vobj [("b", .vnum 2)])) (.ok (.vobj [("a", .vnum 1)]))).2
      = [.ext "https://ext/x.json"] :=
  ⟨rfl, rfl, by simp, by decide⟩

/-- Claim C7 amended: when N concurrent `getData(p, k)` calls arrive while
the first call's load is in flight, exactly one load sequence is started;
on success every deduplicated caller receives the loaded value itself
while the initiating caller receives its spread-transformed copy
(identical for Blob payloads), and on failure all callers reject with the
same error.  Each load sequence makes at most one external attempt and at
most one local-fetch attempt, with exactly one local-fetch attempt
whenever no override exists (and also whenever the external attempt
fails). -/
theorem c7_amended_deduplication (p : String) (k : RespType) (cs : List Nat) (v : Value)
    (src : Source) :
    ((runScript (.call 1 p k :: (cs.map (fun c => Event.call c p k)
        ++ [.resolve 0 (.success v src)])) initSt).fetchLog = [(normalizeLocalUrl p, k)] ∧
     (runScript (.call 1 p k :: (cs.map (fun c => Event.call c p k)
        ++ [.resolve 0 (.success v src)])) initSt).results
       = (1, .ok (returnValue v)) :: cs.map (fun c => (c, .ok v))) ∧
    ((runScript (.call 1 p k :: (cs.map (fun c => Event.call c p k)
        ++ [.resolve 0 .failure])) initSt).fetchLog = [(normalizeLocalUrl p, k)] ∧
     (runScript (.call 1 p k :: (cs.map (fun c => Event.call c p k)
        ++ [.resolve 0 .failure])) initSt).results
       = (1, .errLoad) :: cs.map (fun c => (c, .errLoad))) ∧
    (∀ cfg url extF locF u, getExternalUrl cfg url = some u →
      (performDataLoad cfg url extF locF).2 = [.ext u] ∨
      (performDataLoad cfg url extF locF).2 = [.ext u, .loc url]) ∧
    (∀ cfg url extF locF, getExternalUrl cfg url = none →
      (performDataLoad cfg url extF locF).2 = [.loc url]) := by
  have hrun : ∀ (e : Event),
      runScript (.call 1 p k :: (cs.map (fun c => Event.call c p k) ++ [e])) initSt
        = step (inFlightSt p k cs [(normalizeLocalUrl p, k)]) e := by
    intro e
    rw [runScript, List.foldl_cons, first_call_starts, List.foldl_append]
    have h2 := waiters_accumulate p k cs [] [(normalizeLocalUrl p, k)]
    rw [runScript] at h2
    rw [h2]
    rfl
  refine ⟨⟨?_, ?_⟩, ⟨?_, ?_⟩,
    fun cfg url extF locF u h => perform_attempts_override cfg url extF locF u h,
    fun cfg url extF locF h => perform_attempts_no_override cfg url extF locF h⟩ <;>
  · rw [hrun]
    simp [inFlightSt, step, resolveStep, alGet, alSet, alDrop]

/-- Witness for C7 (amended) at concrete inputs: three concurrent
json-kind callers produce a single load and all three resolve with the
loaded object; with an override whose external attempt succeeds the
attempt list satisfies the at-most-one disjunction; with no override
configuration the attempt list is exactly the local fetch. -/
theorem c7_amended_deduplication_witness :
    (runScript (.call 1 "x.json" .json :: ([2, 3].map (fun c => Event.call c "x.json" .json)
        ++ [.resolve 0 (.success (.vobj [("a", .vnum 1)]) .local)])) initSt).results
      = [(1, .ok (.vobj [("a", .vnum 1)])), (2, .ok (.vobj [("a", .vnum 1)])),
         (3, .ok (.vobj [("a", .vnum 1)]))] ∧
    ((performDataLoad (some [("/assets/x.json", .vstr "https://ext/x.json")]) "/assets/x.json"
        (fun _ => .ok (.vobj [("b", .vnum 2)])) (.ok .vnull)).2 = [.ext "https://ext/x.json"] ∨
     (performDataLoad (some [("/assets/x.json", .vstr "https://ext/x.json")]) "/assets/x.json"
        (fun _ => .ok (.vobj [("b", .vnum 2)])) (.ok .vnull)).2
       = [.ext "https://ext/x.json", .loc "/assets/x.json"]) ∧
    (performDataLoad none "/b.json" (fun _ => .error ()) (.ok .vnull)).2 = [.loc "/b.json"] :=
  ⟨(c7_amended_deduplication "x.json" .json [2, 3] (.vobj [("a", .vnum 1)]) .local).1.2,
   (c7_amended_deduplication "x.json" .json [2, 3] (.vobj [("a", .vnum 1)]) .local).2.2.1
     (some [("/assets/x.json", .vstr "https://ext/x.json")]) "/assets/x.json"
     (fun _ => .ok (.vobj [("b", .vnum 2)])) (.ok .vnull) "https://ext/x.json" (by decide),
   (c7_amended_deduplication "x.json" .json [2, 3] (.vobj [("a", .vnum 1)]) .local).2.2.2
     none "/b.json" (fun _ => .error ()) (.ok .vnull) rfl⟩

/-- Claim C8 as stated is false at a concrete input: for the relative path
"data/x.json" (no leading separator, no assets prefix), the spelling with
a leading separator normalizes to "/data/x.json", not to the
"/assets/data/x.json" key the other spellings produce. -/
theorem c8_claim_counterexample :
    normalizeLocalUrl "data/x.json" = "/assets/data/x.json" ∧
    normalizeLocalUrl "/data/x.json" = "/data/x.json" ∧
    ("/assets/data/x.json" : String) ≠ "/data/x.json" :=
  ⟨by decide, by decide, by decide⟩

/-- Claim C8 amended: for a relative path `p` with neither a leading
separator nor the assets prefix, the three spellings `p`, "assets/"+`p`
and "/assets/"+`p` all normalize to the same key "/assets/"+`p`, while the
spelling "/"+`p` normalizes to "/"+`p` itself, which is a different key. -/
theorem c8_amended_normalization (p : String) (h1 : beginsWith p "/" = false)
    (h2 : beginsWith p "assets/" = false) :
    normalizeLocalUrl p = "/assets/" ++ p ∧
    normalizeLocalUrl ("assets/" ++ p) = "/assets/" ++ p ∧
    normalizeLocalUrl ("/assets/" ++ p) = "/assets/" ++ p ∧
    normalizeLocalUrl ("/" ++ p) = "/" ++ p ∧
    "/" ++ p ≠ "/assets/" ++ p := by
  refine ⟨by simp [normalizeLocalUrl, h1, h2], ?_, ?_, ?_, ?_⟩
  · rw [normalizeLocalUrl, beginsWith_assets_slash, beginsWith_append]
    simp [slash_assets_split]
  · rw [normalizeLocalUrl, slash_assets_split, beginsWith_append]
    simp
  · rw [normalizeLocalUrl, beginsWith_append]
    simp
  · intro h
    have hd := congrArg String.data h
    rw [show ("/" ++ p).data = '/' :: p.data from rfl,
      show ("/assets/" ++ p).data = '/' :: 'a' :: 's' :: 's' :: 'e' :: 't' :: 's' :: '/' :: p.data from rfl] at hd
    have hlen := congrArg List.length hd
    simp at hlen

/-- Witness for C8 (amended) at the concrete path "data/x.json". -/
theorem c8_amended_normalization_witness :
    normalizeLocalUrl "data/x.json" = "/assets/" ++ "data/x.json" ∧
    normalizeLocalUrl ("assets/" ++ "data/x.json") = "/assets/" ++ "data/x.json" ∧
    normalizeLocalUrl ("/assets/" ++ "data/x.json") = "/assets/" ++ "data/x.json" ∧
    normalizeLocalUrl ("/" ++ "data/x.json") = "/" ++ "data/x.json" ∧
    "/" ++ "data/x.json" ≠ "/assets/" ++ "data/x.json" :=
  c8_amended_normalization "data/x.json" (by decide) (by decide)

/-- Claim C9: in-flight deduplication is keyed by the normalized locator
alone — a `getData(p, k2)` call arriving while a request for `p` with a
different kind `k1` is pending is attached to the pending request, exactly
one load sequence (of kind `k1`) runs, and the second caller receives the
pending `k1` result as-is; no fetch for kind `k2` is ever issued. -/
theorem c9_kind_blind_dedup (p : String) (k1 k2 : RespType) (v : Value) (src : Source)
    (_hk : k1 ≠ k2) :
    (runScript [.call 1 p k1, .call 2 p k2, .resolve 0 (.success v src)] initSt).fetchLog
      = [(normalizeLocalUrl p, k1)] ∧
    (runScript [.call 1 p k1, .call 2 p k2, .resolve 0 (.success v src)] initSt).results
      = [(1, .ok (returnValue v)), (2, .ok v)] := by
  constructor <;>
    simp [runScript, step, callStep, afterCacheMiss, resolveStep, initSt,
      alGet, alSet, alDrop, alUpd]

/-- Witness for C9 at concrete inputs: a json-kind request is in flight, a
text-kind request for the same path deduplicates onto it; one fetch of
kind json runs and the text-kind caller receives the json result. -/
theorem c9_kind_blind_dedup_witness :
    (runScript [.call 1 "a.json" .json, .call 2 "a.json" .text,
        .resolve 0 (.success (.vobj [("a", .vnum 1)]) .local)] initSt).fetchLog
      = [("/assets/a.json", .json)] ∧
    (runScript [.call 1 "a.json" .json, .call 2 "a.json" .text,
        .resolve 0 (.success (.vobj [("a", .vnum 1)]) .local)] initSt).results
      = [(1, .ok (.vobj [("a", .vnum 1)])), (2, .ok (.vobj [("a", .vnum 1)]))] :=
  c9_kind_blind_dedup "a.json" .json .text (.vobj [("a", .vnum 1)]) .local (by decide)

/-- Claim C10: the recorded failure marker is kind-blind — after a
`getData(p, k1)` call fails terminally, a `getData(p, k2)` call for any
kind `k2` rejects with the "previously failed" error without any fresh
load sequence, and only after `clearCache(p)` does a new call start a
fresh load. -/
theorem c10_kind_blind_failure_marker (p : String) (k1 k2 : RespType) :
    (runScript [.call 1 p k1, .resolve 0 .failure, .call 2 p k2] initSt).results
      = [(2, .errPrevFailed), (1, .errLoad)] ∧
    (runScript [.call 1 p k1, .resolve 0 .failure, .call 2 p k2] initSt).fetchLog
      = [(normalizeLocalUrl p, k1)] ∧
    (runScript [.call 1 p k1, .resolve 0 .failure, .call 2 p k2, .clear (some p),
        .call 3 p k2] initSt).fetchLog
      = [(normalizeLocalUrl p, k1), (normalizeLocalUrl p, k2)] := by
  refine ⟨?_, ?_, ?_⟩ <;>
    simp [runScript, step, callStep, afterCacheMiss, resolveStep, clearStep, initSt,
      alGet, alSet, alDrop]

namespace HeapModel

/-- Claim C4 as stated is false at concrete inputs.  In the heap
`[{inner: ref 1}, {a: 1}]` with the cache entry rooted at object 0, a
cache-hit caller receives the shallow copy at address 2 whose "inner"
field still references the shared object 1; mutating the returned value at
depth two (`returned.inner.a = 2`) makes the next cache-hit call return a
value whose "inner"."a" is 2 instead of 1.  Likewise a deduplicated caller
receives the cached root itself, so even its top-level mutation
(`returned.a = 2`) changes what the next call returns. -/
theorem c4_claim_counterexample :
    readPath (shallowCopyReturn [[("inner", HVal.href 1)], [("a", HVal.hatom 1)]] 0).1
        (shallowCopyReturn [[("inner", HVal.href 1)], [("a", HVal.hatom 1)]] 0).2
        ["inner", "a"] = .hatom 1 ∧
    readPath (shallowCopyReturn [[("inner", HVal.href 1)], [("a", HVal.hatom 1)]] 0).1
        (shallowCopyReturn [[("inner", HVal.href 1)], [("a", HVal.hatom 1)]] 0).2
        ["inner"] = .href 1 ∧
    readPath
        (shallowCopyReturn (heapSetField
          (shallowCopyReturn [[("inner", HVal.href 1)], [("a", HVal.hatom 1)]] 0).1
          1 "a" (.hatom 2)) 0).1
        (shallowCopyReturn (heapSetField
          (shallowCopyReturn [[("inner", HVal.href 1)], [("a", HVal.hatom 1)]] 0).1
          1 "a" (.hatom 2)) 0).2
        ["inner", "a"] = .hatom 2 ∧
    (HVal.hatom 2) ≠ .hatom 1 ∧
    dedupReturn 0 = .href 0 ∧
    readPath (shallowCopyReturn (heapSetField [[("a", HVal.hatom 1)]] 0 "a" (.hatom 2)) 0).1
        (shallowCopyReturn (heapSetField [[("a", HVal.hatom 1)]] 0 "a" (.hatom 2)) 0).2
        ["a"] = .hatom 2 :=
  ⟨by decide, by decide, by decide, by decide, rfl, by decide⟩

/-- Claim C4 amended: only the top level of the returned object is a fresh
copy, and only for the initiating and cache-hit callers.  For a closed
heap with the cache entry rooted at `root`, mutating a top-level field of
the object returned by `shallowCopyReturn` (the fresh address `h.length`)
leaves the cached root's object and every observation reachable from the
root unchanged, so the value returned by a subsequent cache-hit call is
unchanged along every property path.  (Mutations at depth two or more,
and any mutation through a deduplicated caller's reference, do leak, as
the counterexample shows.) -/
theorem c4_amended_shallow_copy (h : Heap) (root : Nat) (hcl : heapClosed h = true)
    (hr : root < h.length) (key : String) (vnew : HVal) :
    (shallowCopyReturn h root).2 = .href h.length ∧
    (∀ path, readPath (heapSetField (shallowCopyReturn h root).1 h.length key vnew)
        (.href root) path = readPath h (.href root) path) ∧
    heapGet (heapSetField (shallowCopyReturn h root).1 h.length key vnew) root
      = heapGet h root ∧
    (∀ key2 ks,
      readPath
        (shallowCopyReturn (heapSetField (shallowCopyReturn h root).1 h.length key vnew) root).1
        (shallowCopyReturn (heapSetField (shallowCopyReturn h root).1 h.length key vnew) root).2
        (key2 :: ks)
      = readPath h (.href root) (key2 :: ks)) := by
  have hcopy1 : (shallowCopyReturn h root).1 = h ++ [heapGet h root] := rfl
  rw [hcopy1]
  have hag : ∀ a, a < h.length →
      heapGet (heapSetField (h ++ [heapGet h root]) h.length key vnew) a = heapGet h a :=
    fun a ha => heapGet_mutated_low h (heapGet h root) key vnew a ha
  have hrb : refBound h.length (HVal.href root) = true := by
    simp [refBound, hr]
  refine ⟨rfl, ?_, hag root hr, ?_⟩
  · intro path
    exact readPath_agree h _ hcl hag path (.href root) hrb
  · intro key2 ks
    have hm2 : (shallowCopyReturn (heapSetField (h ++ [heapGet h root]) h.length key vnew) root).2
        = HVal.href (heapSetField (h ++ [heapGet h root]) h.length key vnew).length := rfl
    have hm1 : (shallowCopyReturn (heapSetField (h ++ [heapGet h root]) h.length key vnew) root).1
        = heapSetField (h ++ [heapGet h root]) h.length key vnew
          ++ [heapGet (heapSetField (h ++ [heapGet h root]) h.length key vnew) root] := rfl
    rw [hm1, hm2]
    simp only [readPath]
    rw [heapGet_concat_self, hag root hr]
    have hag2 : ∀ a, a < h.length →
        heapGet (heapSetField (h ++ [heapGet h root]) h.length key vnew
          ++ [heapGet h root]) a
        = heapGet h a := by
      intro a ha
      have hlt : a < (heapSetField (h ++ [heapGet h root]) h.length key vnew).length := by
        rw [mutated_length]
        omega
      rw [heapGet_append_low _ _ a hlt]
      exact hag a ha
    exact readPath_agree h _ hcl hag2 ks _ (heapClosed_field h hcl root hr key2)

/-- Witness for C4 (amended) at a concrete closed heap: after mutating the
returned copy's top level (adding field "x"), the observation
"inner"."a" of the cached root is unchanged. -/
theorem c4_amended_shallow_copy_witness :
    heapClosed [[("inner", HVal.href 1)], [("a", HVal.hatom 1)]] = true ∧
    readPath
        (heapSetField
          (shallowCopyReturn [[("inner", HVal.href 1)], [("a", HVal.hatom 1)]] 0).1
          2 "x" (.hatom 5))
        (.href 0) ["inner", "a"]
      = readPath [[("inner", HVal.href 1)], [("a", HVal.hatom 1)]] (.href 0) ["inner", "a"] :=
  ⟨by decide,
   (c4_amended_shallow_copy [[("inner", HVal.href 1)], [("a", HVal.hatom 1)]] 0
      (by decide) (by decide) "x" (.hatom 5)).2.1 ["inner", "a"]⟩

end HeapModel

end Portfolio
